import Mathlib

/-!
Shallow embedding of `src/op25_udp_shim.py` (OP25 UDP → TCP PCM shim).

Buffers are byte sequences (`List ℕ`), timestamps are rationals standing for
`time.monotonic()` readings, and the resolved environment configuration
(`MIN_BUFFER_BYTES`, `MAX_BUFFER_BYTES`, `INJECT_HOLD_S`) is passed as an
explicit `Config` record, matching the values the source computes at startup.
-/

set_option maxRecDepth 8000

namespace Op25

/-- `SAMPLE_RATE = 8000` (8 kHz decoded audio). -/
def SAMPLE_RATE : ℕ := 8000

/-- `BYTES_PER_SAMPLE = 2` (16-bit PCM). -/
def BYTES_PER_SAMPLE : ℕ := 2

/-- `FRAME_MS = 20`. -/
def FRAME_MS : ℕ := 20

/-- `FRAME_SAMPLES = int(SAMPLE_RATE * (FRAME_MS / 1000.0)) = 160`. -/
def FRAME_SAMPLES : ℕ := SAMPLE_RATE * FRAME_MS / 1000

/-- `FRAME_BYTES = FRAME_SAMPLES * BYTES_PER_SAMPLE = 320`. -/
def FRAME_BYTES : ℕ := FRAME_SAMPLES * BYTES_PER_SAMPLE

lemma FRAME_BYTES_eq : FRAME_BYTES = 320 := rfl

/-- `OP25_IDLE_RESET_S = 0.40`: OP25 counts as idle / new call after this gap. -/
def OP25_IDLE_RESET_S : ℚ := 2/5

/-- `frame_interval = FRAME_SAMPLES / SAMPLE_RATE` (seconds per output frame). -/
def frame_interval : ℚ := (FRAME_SAMPLES : ℚ) / (SAMPLE_RATE : ℚ)

/-- `max_frames_per_loop = 10`: per-tick cap on emitted frames. -/
def max_frames_per_loop : ℕ := 10

/-- A byte buffer; each element is one byte value. -/
abbrev Buf := List ℕ

/-- Resolved environment configuration consumed by the loop:
`MIN_BUFFER_BYTES`, `MAX_BUFFER_BYTES` and `INJECT_HOLD_S`
(the source derives them from `OP25_MIN_BUFFER_MS`, `MAX_BUFFER_SECONDS`
and `INJECT_HOLD_MS`; `MIN_BUFFER_BYTES = 0` iff the jitter buffer is
disabled). -/
structure Config where
  minBufferBytes : ℕ
  maxBufferBytes : ℕ
  injectHoldS : ℚ
deriving Repr, DecidableEq

/-- Per-session mutable state of `main`'s inner loop: the two ingestion
buffers, the priming flag, the two last-receive timestamps (0 is the
"never" sentinel, as in the source) and the scheduler's `next_send_time`. -/
structure Shim where
  audio_buf : Buf
  inject_buf : Buf
  op25_primed : Bool
  last_op25_rx_time : ℚ
  last_inject_time : ℚ
  next_send_time : ℚ
deriving Repr, DecidableEq

/-- `_drain_udp(sock, buf)`: appends each queued datagram to `buf` in arrival
order and accumulates the byte count; an empty datagram (`if not data`)
breaks out, and the end of the queue models `BlockingIOError`.
The input list is the queue of datagrams the socket would deliver. -/
def _drain_udp : List Buf → Buf → Buf × ℕ
  | [], buf => (buf, 0)
  | d :: rest, buf =>
    if d.isEmpty then (buf, 0)
    else
      let r := _drain_udp rest (buf ++ d)
      (r.1, d.length + r.2)

/-- `_cap_buffer(buf, max_bytes)`: keep only the newest `max_bytes`
(drop oldest from the head). -/
def _cap_buffer (buf : Buf) (max_bytes : ℕ) : Buf :=
  if max_bytes < buf.length then buf.drop (buf.length - max_bytes) else buf

/-- `_enforce_sample_alignment(buf)`: drop the final byte if the length is odd. -/
def _enforce_sample_alignment (buf : Buf) : Buf :=
  if buf.length % 2 = 1 then buf.dropLast else buf

/-- `inject_active = (len(inject_buf) > 0) or ((now - last_inject_time) <= INJECT_HOLD_S)`. -/
def inject_active (cfg : Config) (now : ℚ) (st : Shim) : Bool :=
  decide (0 < st.inject_buf.length) || decide (now - st.last_inject_time ≤ cfg.injectHoldS)

/-- The injected-audio branch of the arbiter (lines 254–262): take a whole
frame from `inject_buf`, or all of it zero-padded when short. -/
def serve_inject (st : Shim) : Buf × Shim :=
  if FRAME_BYTES ≤ st.inject_buf.length then
    (st.inject_buf.take FRAME_BYTES, { st with inject_buf := st.inject_buf.drop FRAME_BYTES })
  else
    (st.inject_buf ++ List.replicate (FRAME_BYTES - st.inject_buf.length) 0,
     { st with inject_buf := [] })

/-- The OP25 branch of the arbiter (lines 263–279): full frame (held back as
silence while the jitter buffer is not yet primed and below target), or all
remaining bytes zero-padded, with the priming updates of the source. -/
def serve_op25 (cfg : Config) (st : Shim) : Buf × Shim :=
  if FRAME_BYTES ≤ st.audio_buf.length then
    if 0 < cfg.minBufferBytes ∧ st.op25_primed = false ∧
        st.audio_buf.length < cfg.minBufferBytes then
      (List.replicate FRAME_BYTES 0, st)
    else
      (st.audio_buf.take FRAME_BYTES,
       { st with
          audio_buf := st.audio_buf.drop FRAME_BYTES,
          op25_primed :=
            if 0 < cfg.minBufferBytes ∧ st.op25_primed = false then true
            else st.op25_primed })
  else
    (st.audio_buf ++ List.replicate (FRAME_BYTES - st.audio_buf.length) 0,
     { st with
        audio_buf := [],
        op25_primed :=
          if 0 < cfg.minBufferBytes ∧ st.op25_primed = false ∧
              0 < st.audio_buf.length then true
          else st.op25_primed })

/-- One iteration of the send sub-loop body (lines 250–279): priority
arbitration between the injected and the OP25 source. -/
def build_frame (cfg : Config) (now : ℚ) (st : Shim) : Buf × Shim :=
  if inject_active cfg now st then serve_inject st else serve_op25 cfg st

/-- Priming / last-receive update for the OP25 source (lines 232–241),
given the number of bytes the drain added. -/
def update_op25_primer (cfg : Config) (now : ℚ) (added : ℕ) (st : Shim) : Shim :=
  if 0 < added then
    { st with
       op25_primed :=
         if st.last_op25_rx_time = 0 ∨ OP25_IDLE_RESET_S < now - st.last_op25_rx_time
         then decide (cfg.minBufferBytes = 0)
         else st.op25_primed,
       last_op25_rx_time := now }
  else
    if st.last_op25_rx_time ≠ 0 ∧ OP25_IDLE_RESET_S < now - st.last_op25_rx_time then
      { st with op25_primed := decide (cfg.minBufferBytes = 0) }
    else st

/-- Injected-source ingestion (lines 226–230): drain, timestamp on
`added > 0`, then alignment and cap maintenance. -/
def ingest_inject (cfg : Config) (now : ℚ) (pkts : List Buf) (st : Shim) : Shim :=
  let r := _drain_udp pkts st.inject_buf
  let st1 := if 0 < r.2 then { st with last_inject_time := now } else st
  { st1 with inject_buf := _cap_buffer (_enforce_sample_alignment r.1) cfg.maxBufferBytes }

/-- OP25-source ingestion (lines 232–244): drain, primer / timestamp update,
then alignment and cap maintenance. -/
def ingest_op25 (cfg : Config) (now : ℚ) (pkts : List Buf) (st : Shim) : Shim :=
  let r := _drain_udp pkts st.audio_buf
  let st1 := update_op25_primer cfg now r.2 st
  { st1 with audio_buf := _cap_buffer (_enforce_sample_alignment r.1) cfg.maxBufferBytes }

/-- The send sub-loop (lines 247–289): while the current reading is at or past
`next_send_time` and fewer than `fuel` frames remain allowed this tick,
build one frame, advance `next_send_time` by exactly `frame_interval`, and
re-read the clock (`clock i` is the i-th fresh `time.monotonic()` reading). -/
def send_loop (cfg : Config) (clock : ℕ → ℚ) :
    ℕ → ℕ → ℚ → Shim → List Buf × Shim
  | 0, _, _, st => ([], st)
  | fuel + 1, i, now, st =>
    if now < st.next_send_time then ([], st)
    else
      let r := build_frame cfg now st
      let st2 := { r.2 with next_send_time := r.2.next_send_time + frame_interval }
      let rest := send_loop cfg clock fuel (i + 1) (clock i) st2
      (r.1 :: rest.1, rest.2)

/-- One full scheduler tick (lines 222–289): drain and maintain both sources,
then run the bounded send sub-loop. Returns the frames written this tick. -/
def tick (cfg : Config) (now : ℚ) (clock : ℕ → ℚ)
    (inj_pkts op25_pkts : List Buf) (st : Shim) : List Buf × Shim :=
  let st1 := ingest_inject cfg now inj_pkts st
  let st2 := ingest_op25 cfg now op25_pkts st1
  send_loop cfg clock max_frames_per_loop 0 now st2

/-! ### Helper lemmas about the arbiter -/

lemma serve_inject_fst_length (st : Shim) : (serve_inject st).1.length = FRAME_BYTES := by
  unfold serve_inject
  split
  · next h => simp only [List.length_take]; omega
  · next h => simp only [List.length_append, List.length_replicate]; omega

lemma serve_op25_fst_length (cfg : Config) (st : Shim) :
    (serve_op25 cfg st).1.length = FRAME_BYTES := by
  unfold serve_op25
  split
  · next h =>
    split
    · simp only [List.length_replicate]
    · simp only [List.length_take]; omega
  · next h => simp only [List.length_append, List.length_replicate]; omega

lemma build_frame_fst_length (cfg : Config) (now : ℚ) (st : Shim) :
    (build_frame cfg now st).1.length = FRAME_BYTES := by
  unfold build_frame
  split
  · exact serve_inject_fst_length st
  · exact serve_op25_fst_length cfg st

lemma send_loop_mem_length (cfg : Config) (clock : ℕ → ℚ) :
    ∀ (fuel i : ℕ) (now : ℚ) (st : Shim) (f : Buf),
      f ∈ (send_loop cfg clock fuel i now st).1 → f.length = FRAME_BYTES := by
  intro fuel
  induction fuel with
  | zero => intro i now st f hf; simp [send_loop] at hf
  | succ n ih =>
    intro i now st f hf
    rw [send_loop] at hf
    split at hf
    · simp at hf
    · simp only [List.mem_cons] at hf
      rcases hf with h | h
      · subst h; exact build_frame_fst_length cfg now st
      · exact ih (i + 1) (clock i) _ f h

/-- Claim C1: every frame written downstream has exactly `FRAME_BYTES` bytes
(320 bytes = 20 ms of 8 kHz mono 16-bit PCM): all four arbiter branches
(full override, short override padded, primary real/silence, short primary
padded) produce a `FRAME_BYTES` chunk, hence every frame emitted by the send
sub-loop in any reachable state has that exact length. -/
theorem claim_C1_frame_size :
    (∀ (cfg : Config) (now : ℚ) (st : Shim),
        (build_frame cfg now st).1.length = FRAME_BYTES)
    ∧ (∀ (cfg : Config) (clock : ℕ → ℚ) (fuel i : ℕ) (now : ℚ) (st : Shim)
        (f : Buf), f ∈ (send_loop cfg clock fuel i now st).1 → f.length = FRAME_BYTES) :=
  ⟨build_frame_fst_length, fun cfg clock fuel i now st f hf =>
    send_loop_mem_length cfg clock fuel i now st f hf⟩

/-! ### Concrete instances used by the witnesses -/

/-- A concrete configuration: the source defaults
(`MIN_BUFFER_BYTES = 4000`, `MAX_BUFFER_BYTES = 480000`, `INJECT_HOLD_S = 0.75`). -/
def cfg0 : Config := ⟨4000, 480000, 3/4⟩

/-- A fresh session state, as at connection time with `next_send_time = 0`. -/
def st0 : Shim := ⟨[], [], false, 0, 0, 0⟩

/-- A constant clock for concrete send-loop runs. -/
def clk0 : ℕ → ℚ := fun _ => 100

/-- Concrete state: both sources hold data, override non-empty. -/
def stA : Shim := ⟨[9, 9], [1, 2], false, 0, 0, 0⟩

/-- Concrete state: only the primary source holds data. -/
def stB : Shim := ⟨[9, 9], [], false, 0, 0, 0⟩

lemma inject_inactive_st0 : inject_active cfg0 100 st0 = false := by
  simp [inject_active, cfg0, st0]
  norm_num

theorem claim_C1_frame_size_witness :
    (List.replicate FRAME_BYTES (0 : ℕ)).length = FRAME_BYTES := by
  have hbf : build_frame cfg0 100 st0 = (List.replicate FRAME_BYTES 0, st0) := by
    rw [build_frame, inject_inactive_st0]
    simp only [Bool.false_eq_true, if_false, serve_op25, st0]
    norm_num [FRAME_BYTES, FRAME_SAMPLES, SAMPLE_RATE, BYTES_PER_SAMPLE, FRAME_MS]
  have hsl : (send_loop cfg0 clk0 1 0 100 st0).1 = [List.replicate FRAME_BYTES 0] := by
    rw [send_loop]
    rw [if_neg (by simp [st0])]
    simp only [hbf, send_loop]
  exact claim_C1_frame_size.2 cfg0 clk0 1 0 100 st0 (List.replicate FRAME_BYTES 0)
    (by rw [hsl]; exact List.mem_singleton.mpr rfl)

/-! ### Claim C3 helpers -/

lemma build_frame_of_active (cfg : Config) (now : ℚ) (st : Shim)
    (h : inject_active cfg now st = true) :
    (build_frame cfg now st).1
      = st.inject_buf.take FRAME_BYTES
        ++ List.replicate (FRAME_BYTES - st.inject_buf.length) 0
    ∧ (build_frame cfg now st).2.audio_buf = st.audio_buf := by
  rw [build_frame, h, if_pos rfl]
  unfold serve_inject
  split
  · next hge =>
    have h0 : FRAME_BYTES - st.inject_buf.length = 0 := Nat.sub_eq_zero_of_le hge
    simp [h0]
  · next hlt =>
    have htk : st.inject_buf.take FRAME_BYTES = st.inject_buf :=
      List.take_of_length_le (by omega)
    simp [htk]

lemma build_frame_of_inactive (cfg : Config) (now : ℚ) (st : Shim)
    (h : inject_active cfg now st = false) :
    build_frame cfg now st = serve_op25 cfg st := by
  rw [build_frame, h]
  simp

/-- Claim C3: per emitted frame exactly one source supplies the data, by
strict priority. Override is "active" iff its buffer is non-empty or a
datagram arrived within the hold window of `now` (as recorded in
`last_inject_time`); when active, the frame is byte-for-byte the head of the
override buffer zero-padded to `FRAME_BYTES` and the primary buffer is never
read; once activity lapses past the hold window the frame is the primary
(`serve_op25`) result again. -/
theorem claim_C3_priority :
    (∀ (cfg : Config) (now : ℚ) (st : Shim),
        inject_active cfg now st = true
          ↔ (st.inject_buf ≠ [] ∨ now - st.last_inject_time ≤ cfg.injectHoldS))
    ∧ (∀ (cfg : Config) (now : ℚ) (st : Shim),
        inject_active cfg now st = true →
          (build_frame cfg now st).1
            = st.inject_buf.take FRAME_BYTES
              ++ List.replicate (FRAME_BYTES - st.inject_buf.length) 0
          ∧ (build_frame cfg now st).2.audio_buf = st.audio_buf)
    ∧ (∀ (cfg : Config) (now : ℚ) (st : Shim),
        inject_active cfg now st = false → build_frame cfg now st = serve_op25 cfg st)
    ∧ (∀ (cfg : Config) (now : ℚ) (st : Shim),
        st.inject_buf = [] → cfg.injectHoldS < now - st.last_inject_time →
          inject_active cfg now st = false) := by
  refine ⟨?_, build_frame_of_active, build_frame_of_inactive, ?_⟩
  · intro cfg now st
    simp [inject_active, List.length_pos_iff_ne_nil]
  · intro cfg now st hbuf hlt
    simp [inject_active, hbuf, not_le.mpr hlt]

theorem claim_C3_priority_witness :
    (inject_active cfg0 100 stA = true)
    ∧ (build_frame cfg0 100 stA).1 = [1, 2] ++ List.replicate 318 0
    ∧ (build_frame cfg0 100 stA).2.audio_buf = [9, 9]
    ∧ inject_active cfg0 100 stB = false := by
  have hact : inject_active cfg0 100 stA = true := by
    simp [inject_active, cfg0, stA]
  have h := claim_C3_priority.2.1 cfg0 100 stA hact
  have hinact := claim_C3_priority.2.2.2 cfg0 100 stB
    (by simp [stB]) (by simp [cfg0, stB]; norm_num)
  refine ⟨hact, ?_, by simpa [stA] using h.2, hinact⟩
  rw [h.1]
  simp only [stA]
  decide

/-- Claim C10: while the override source is active, building a frame leaves
the primary (OP25) buffer byte-for-byte unchanged (and does not change the
priming flag either), so primary audio accumulates during an override instead
of being consumed or discarded frame by frame. -/
theorem claim_C10_primary_untouched :
    ∀ (cfg : Config) (now : ℚ) (st : Shim),
      inject_active cfg now st = true →
        (build_frame cfg now st).2.audio_buf = st.audio_buf
        ∧ (build_frame cfg now st).2.op25_primed = st.op25_primed := by
  intro cfg now st h
  rw [build_frame, h, if_pos rfl]
  unfold serve_inject
  split <;> simp

theorem claim_C10_primary_untouched_witness :
    (build_frame cfg0 100 stA).2.audio_buf = [9, 9]
    ∧ (build_frame cfg0 100 stA).2.op25_primed = false := by
  have h := claim_C10_primary_untouched cfg0 100 stA
    (by simp [inject_active, cfg0, stA])
  simpa [stA] using h

/-! ### Claim C5: the paced send sub-loop -/

lemma build_frame_snd_next_send (cfg : Config) (now : ℚ) (st : Shim) :
    (build_frame cfg now st).2.next_send_time = st.next_send_time := by
  unfold build_frame serve_inject serve_op25
  split
  · split <;> rfl
  · split
    · split <;> rfl
    · rfl

lemma send_loop_spec (cfg : Config) (clock : ℕ → ℚ) :
    ∀ (fuel i : ℕ) (now : ℚ) (st : Shim),
      (send_loop cfg clock fuel i now st).1.length ≤ fuel
      ∧ (send_loop cfg clock fuel i now st).2.next_send_time
          = st.next_send_time
            + ((send_loop cfg clock fuel i now st).1.length : ℚ) * frame_interval
      ∧ (now < st.next_send_time → send_loop cfg clock fuel i now st = ([], st)) := by
  intro fuel
  induction fuel with
  | zero =>
    intro i now st
    refine ⟨Nat.le_refl 0, by simp [send_loop], fun _ => rfl⟩
  | succ n ih =>
    intro i now st
    by_cases h : now < st.next_send_time
    · rw [send_loop, if_pos h]
      refine ⟨Nat.zero_le _, by simp, fun _ => rfl⟩
    · rw [send_loop, if_neg h]
      have hbn := build_frame_snd_next_send cfg now st
      obtain ⟨ihlen, ihnext, _⟩ :=
        ih (i + 1) (clock i)
          { (build_frame cfg now st).2 with
              next_send_time := (build_frame cfg now st).2.next_send_time + frame_interval }
      refine ⟨by simpa using Nat.succ_le_succ ihlen, ?_, fun hc => absurd hc h⟩
      simp only [List.length_cons]
      rw [ihnext]
      simp only [hbn]
      push_cast
      ring

/-- Claim C5: in every scheduler tick, the send sub-loop emits at most
`max_frames_per_loop = 10` frames; each emitted frame advances
`next_send_time` by exactly `frame_interval = FRAME_SAMPLES / SAMPLE_RATE`;
and no frame is emitted while the current reading is before `next_send_time`
— so a backlog drains over multiple subsequent ticks rather than in one
burst. -/
theorem claim_C5_per_tick_bound :
    ∀ (cfg : Config) (clock : ℕ → ℚ) (i : ℕ) (now : ℚ) (st : Shim),
      ((send_loop cfg clock max_frames_per_loop i now st).1.length ≤ max_frames_per_loop)
      ∧ ((send_loop cfg clock max_frames_per_loop i now st).2.next_send_time
          = st.next_send_time
            + ((send_loop cfg clock max_frames_per_loop i now st).1.length : ℚ)
              * frame_interval)
      ∧ (now < st.next_send_time →
          send_loop cfg clock max_frames_per_loop i now st = ([], st))
      ∧ (∀ (inj_pkts op25_pkts : List Buf),
          (tick cfg now clock inj_pkts op25_pkts st).1.length ≤ max_frames_per_loop) := by
  intro cfg clock i now st
  obtain ⟨h1, h2, h3⟩ := send_loop_spec cfg clock max_frames_per_loop i now st
  refine ⟨h1, h2, h3, fun inj_pkts op25_pkts => ?_⟩
  exact (send_loop_spec cfg clock max_frames_per_loop 0 now _).1

/-- Concrete state whose `next_send_time` is in the future of `clk0`. -/
def stC : Shim := ⟨[], [], false, 0, 0, 200⟩

theorem claim_C5_per_tick_bound_witness :
    (send_loop cfg0 clk0 max_frames_per_loop 0 100 stC = ([], stC))
    ∧ (send_loop cfg0 clk0 max_frames_per_loop 0 100 st0).1.length
        ≤ max_frames_per_loop := by
  refine ⟨?_, (claim_C5_per_tick_bound cfg0 clk0 0 100 st0).1⟩
  exact (claim_C5_per_tick_bound cfg0 clk0 0 100 stC).2.2.1 (by simp [stC]; norm_num)

/-! ### Claim C6: the capacity cap -/

lemma _cap_buffer_length_le (buf : Buf) (m : ℕ) : (_cap_buffer buf m).length ≤ m := by
  unfold _cap_buffer
  split
  · next h => simp only [List.length_drop]; omega
  · next h => omega

lemma _cap_buffer_eq_drop (buf : Buf) (m : ℕ) (h : m < buf.length) :
    _cap_buffer buf m = buf.drop (buf.length - m) := by
  unfold _cap_buffer
  exact if_pos h

lemma ingest_op25_audio_eq (cfg : Config) (now : ℚ) (pkts : List Buf) (st : Shim) :
    (ingest_op25 cfg now pkts st).audio_buf
      = _cap_buffer (_enforce_sample_alignment (_drain_udp pkts st.audio_buf).1)
          cfg.maxBufferBytes := rfl

lemma ingest_inject_inject_eq (cfg : Config) (now : ℚ) (pkts : List Buf) (st : Shim) :
    (ingest_inject cfg now pkts st).inject_buf
      = _cap_buffer (_enforce_sample_alignment (_drain_udp pkts st.inject_buf).1)
          cfg.maxBufferBytes := rfl

lemma build_frame_buf_lengths (cfg : Config) (now : ℚ) (st : Shim) :
    (build_frame cfg now st).2.audio_buf.length ≤ st.audio_buf.length
    ∧ (build_frame cfg now st).2.inject_buf.length ≤ st.inject_buf.length := by
  unfold build_frame serve_inject serve_op25
  split
  · split
    · constructor <;> simp only [List.length_drop] <;> omega
    · constructor <;> simp <;> omega
  · split
    · split
      · constructor <;> simp
      · constructor <;> simp only [List.length_drop] <;> omega
    · constructor <;> simp <;> omega

lemma align_eq_of_even (b : Buf) (h : 2 ∣ b.length) : _enforce_sample_alignment b = b := by
  unfold _enforce_sample_alignment
  rw [if_neg]
  omega

/-- Claim C6: `_cap_buffer` never leaves more than `max_bytes` bytes and drops
from the head (oldest) down to exactly the cap; hence after the per-tick
maintenance both ingestion buffers are at or below `MAX_BUFFER_BYTES`, frame
consumption never grows a buffer, and an over-cap burst (of even length, so
the intervening alignment step is the identity) retains exactly the newest
`MAX_BUFFER_BYTES` bytes. -/
theorem claim_C6_capacity :
    (∀ (buf : Buf) (m : ℕ), (_cap_buffer buf m).length ≤ m)
    ∧ (∀ (buf : Buf) (m : ℕ), m < buf.length →
        _cap_buffer buf m = buf.drop (buf.length - m))
    ∧ (∀ (cfg : Config) (now : ℚ) (pkts : List Buf) (st : Shim),
        (ingest_op25 cfg now pkts st).audio_buf.length ≤ cfg.maxBufferBytes
        ∧ (ingest_inject cfg now pkts st).inject_buf.length ≤ cfg.maxBufferBytes)
    ∧ (∀ (cfg : Config) (now : ℚ) (st : Shim),
        (build_frame cfg now st).2.audio_buf.length ≤ st.audio_buf.length
        ∧ (build_frame cfg now st).2.inject_buf.length ≤ st.inject_buf.length)
    ∧ (∀ (b : Buf) (m : ℕ), 2 ∣ b.length → m < b.length →
        _cap_buffer (_enforce_sample_alignment b) m = b.drop (b.length - m)) := by
  refine ⟨_cap_buffer_length_le, _cap_buffer_eq_drop, ?_, build_frame_buf_lengths, ?_⟩
  · intro cfg now pkts st
    constructor
    · rw [ingest_op25_audio_eq]; exact _cap_buffer_length_le _ _
    · rw [ingest_inject_inject_eq]; exact _cap_buffer_length_le _ _
  · intro b m h2 hlt
    rw [align_eq_of_even b h2]
    exact _cap_buffer_eq_drop b m hlt

theorem claim_C6_capacity_witness :
    (_cap_buffer [1, 2, 3, 4, 5, 6] 4 = [3, 4, 5, 6])
    ∧ (_cap_buffer (_enforce_sample_alignment [1, 2, 3, 4, 5, 6]) 4 = [3, 4, 5, 6]) := by
  constructor
  · have h := claim_C6_capacity.2.1 [1, 2, 3, 4, 5, 6] 4 (by norm_num)
    simpa using h
  · have h := claim_C6_capacity.2.2.2.2 [1, 2, 3, 4, 5, 6] 4 (by norm_num) (by norm_num)
    simpa using h

/-! ### Claim C7: sample alignment (corrected: it needs an even byte cap) -/

lemma align_length_even (b : Buf) : 2 ∣ (_enforce_sample_alignment b).length := by
  unfold _enforce_sample_alignment
  split
  · next h => simp only [List.length_dropLast]; omega
  · next h => omega

lemma cap_length_even (b : Buf) (m : ℕ) (hm : 2 ∣ m) (hb : 2 ∣ b.length) :
    2 ∣ (_cap_buffer b m).length := by
  unfold _cap_buffer
  split
  · next h => simp only [List.length_drop]; omega
  · next h => exact hb

lemma frame_bytes_even : 2 ∣ FRAME_BYTES := by decide

lemma build_frame_even (cfg : Config) (now : ℚ) (st : Shim) :
    (2 ∣ st.audio_buf.length → 2 ∣ (build_frame cfg now st).2.audio_buf.length)
    ∧ (2 ∣ st.inject_buf.length → 2 ∣ (build_frame cfg now st).2.inject_buf.length) := by
  have hfb : 2 ∣ FRAME_BYTES := frame_bytes_even
  unfold build_frame serve_inject serve_op25
  split
  · split
    · constructor <;> intro h <;> simp only [List.length_drop] <;> omega
    · constructor <;> intro h <;> simp <;> omega
  · split
    · split
      · constructor <;> intro h <;> simpa
      · constructor <;> intro h <;> simp only [List.length_drop] <;> omega
    · constructor <;> intro h <;> simp <;> omega

/-- Claim C7 (amended): after the per-tick maintenance (drain-append, then
alignment, then cap) and after every frame consumption, each ingestion
buffer's length is even — for every sequence of datagram sizes, *provided*
the resolved `MAX_BUFFER_BYTES` is even (as with any integer
`MAX_BUFFER_SECONDS`). With an odd cap, the cap step (which runs after the
alignment step) can leave an odd length, refuting the claim for every valid
configuration of `MAX_BUFFER_SECONDS`. -/
theorem claim_C7_alignment :
    ∀ (cfg : Config), 2 ∣ cfg.maxBufferBytes →
      (∀ (now : ℚ) (pkts : List Buf) (st : Shim),
        2 ∣ (ingest_op25 cfg now pkts st).audio_buf.length
        ∧ 2 ∣ (ingest_inject cfg now pkts st).inject_buf.length)
      ∧ (∀ (now : ℚ) (st : Shim),
        (2 ∣ st.audio_buf.length → 2 ∣ (build_frame cfg now st).2.audio_buf.length)
        ∧ (2 ∣ st.inject_buf.length → 2 ∣ (build_frame cfg now st).2.inject_buf.length)) := by
  intro cfg hm
  refine ⟨fun now pkts st => ⟨?_, ?_⟩, fun now st => build_frame_even cfg now st⟩
  · rw [ingest_op25_audio_eq]
    exact cap_length_even _ _ hm (align_length_even _)
  · rw [ingest_inject_inject_eq]
    exact cap_length_even _ _ hm (align_length_even _)

/-- Configuration with an odd byte cap: the source computes
`MAX_BUFFER_BYTES = int(8000 * MAX_BUFFER_SECONDS * 2)`, which is the odd
value 1 for the valid (non-negative) setting `MAX_BUFFER_SECONDS = 0.0001`. -/
def cfgOdd : Config := ⟨4000, 1, 3/4⟩

theorem claim_C7_counterexample :
    ¬ (2 ∣ cfgOdd.maxBufferBytes)
    ∧ (ingest_op25 cfgOdd 100 [[1, 2]] st0).audio_buf.length % 2 = 1 := by
  constructor
  · simp [cfgOdd]
  · rw [ingest_op25_audio_eq]
    decide

theorem claim_C7_alignment_witness :
    2 ∣ (ingest_op25 cfg0 100 [[1, 2, 3]] st0).audio_buf.length := by
  exact ((claim_C7_alignment cfg0 (by norm_num [cfg0])).1 100 [[1, 2, 3]] st0).1

/-! ### Claim C8: the drain contract (corrected: an empty datagram stops it) -/

/-- The datagrams `_drain_udp` actually consumes and appends: everything up to
(but not including) the first zero-length datagram. -/
def queued_before_empty (pkts : List Buf) : List Buf :=
  pkts.takeWhile (fun d => !d.isEmpty)

lemma _drain_udp_spec : ∀ (pkts : List Buf) (buf : Buf),
    (_drain_udp pkts buf).1 = buf ++ (queued_before_empty pkts).flatten
    ∧ (_drain_udp pkts buf).2 = ((queued_before_empty pkts).map List.length).sum := by
  intro pkts
  induction pkts with
  | nil => intro buf; simp [_drain_udp, queued_before_empty]
  | cons d rest ih =>
    intro buf
    by_cases hd : d.isEmpty
    · rw [_drain_udp, if_pos hd]
      simp [queued_before_empty, List.takeWhile, hd]
    · rw [_drain_udp, if_neg hd]
      obtain ⟨ih1, ih2⟩ := ih (buf ++ d)
      constructor
      · simp only [ih1, queued_before_empty, List.takeWhile, hd]
        simp [List.append_assoc]
      · simp only [ih2, queued_before_empty, List.takeWhile, hd]
        simp

lemma ingest_op25_last_rx (cfg : Config) (now : ℚ) (pkts : List Buf) (st : Shim) :
    (0 < (_drain_udp pkts st.audio_buf).2 →
      (ingest_op25 cfg now pkts st).last_op25_rx_time = now)
    ∧ ((_drain_udp pkts st.audio_buf).2 = 0 →
      (ingest_op25 cfg now pkts st).last_op25_rx_time = st.last_op25_rx_time) := by
  constructor
  · intro h
    show (update_op25_primer cfg now (_drain_udp pkts st.audio_buf).2 st).last_op25_rx_time = now
    unfold update_op25_primer
    rw [if_pos h]
  · intro h
    show (update_op25_primer cfg now (_drain_udp pkts st.audio_buf).2 st).last_op25_rx_time
        = st.last_op25_rx_time
    unfold update_op25_primer
    rw [if_neg (by omega)]
    split <;> rfl

lemma ingest_inject_last_rx (cfg : Config) (now : ℚ) (pkts : List Buf) (st : Shim) :
    (0 < (_drain_udp pkts st.inject_buf).2 →
      (ingest_inject cfg now pkts st).last_inject_time = now)
    ∧ ((_drain_udp pkts st.inject_buf).2 = 0 →
      (ingest_inject cfg now pkts st).last_inject_time = st.last_inject_time) := by
  constructor
  · intro h
    show (if 0 < (_drain_udp pkts st.inject_buf).2
          then { st with last_inject_time := now } else st).last_inject_time = now
    rw [if_pos h]
  · intro h
    show (if 0 < (_drain_udp pkts st.inject_buf).2
          then { st with last_inject_time := now } else st).last_inject_time
        = st.last_inject_time
    rw [if_neg (by omega)]

/-- Claim C8 (amended): `_drain_udp` appends every datagram queued *before the
first zero-length datagram* to the buffer, in arrival order, and returns the
total number of bytes so appended (a zero-length datagram stops the drain
early — the claim's "every datagram currently queued" fails there); and each
source's last-received timestamp is set to `now` iff the returned byte count
is positive, otherwise left unchanged. -/
theorem claim_C8_drain :
    (∀ (pkts : List Buf) (buf : Buf),
      (_drain_udp pkts buf).1 = buf ++ (queued_before_empty pkts).flatten
      ∧ (_drain_udp pkts buf).2 = ((queued_before_empty pkts).map List.length).sum)
    ∧ (∀ (cfg : Config) (now : ℚ) (pkts : List Buf) (st : Shim),
      (0 < (_drain_udp pkts st.audio_buf).2 →
        (ingest_op25 cfg now pkts st).last_op25_rx_time = now)
      ∧ ((_drain_udp pkts st.audio_buf).2 = 0 →
        (ingest_op25 cfg now pkts st).last_op25_rx_time = st.last_op25_rx_time)
      ∧ (0 < (_drain_udp pkts st.inject_buf).2 →
        (ingest_inject cfg now pkts st).last_inject_time = now)
      ∧ ((_drain_udp pkts st.inject_buf).2 = 0 →
        (ingest_inject cfg now pkts st).last_inject_time = st.last_inject_time)) := by
  refine ⟨_drain_udp_spec, fun cfg now pkts st => ?_⟩
  obtain ⟨h1, h2⟩ := ingest_op25_last_rx cfg now pkts st
  obtain ⟨h3, h4⟩ := ingest_inject_last_rx cfg now pkts st
  exact ⟨h1, h2, h3, h4⟩

theorem claim_C8_counterexample :
    _drain_udp [[], [5, 6]] [] = ([], 0)
    ∧ queued_before_empty [[], [5, 6]] = []
    ∧ ([5, 6] : Buf) ≠ [] := by
  refine ⟨by decide, by decide, by decide⟩

theorem claim_C8_drain_witness :
    (_drain_udp [[1, 2], [3]] [] = ([1, 2, 3], 3))
    ∧ (ingest_op25 cfg0 100 [[1, 2]] st0).last_op25_rx_time = 100 := by
  constructor
  · have h := claim_C8_drain.1 [[1, 2], [3]] []
    have h1 := h.1
    have h2 := h.2
    refine Prod.ext ?_ ?_
    · rw [h1]; decide
    · rw [h2]; decide
  · exact (claim_C8_drain.2 cfg0 100 [[1, 2]] st0).1 (by decide)

/-! ### Claim C9: session-fatal write errors

The session boundary of `main` (lines 193–308): the streaming loop's
`conn.sendall` re-raises `BrokenPipeError` / `ConnectionResetError`
(lines 281–285), the per-session handler absorbs exactly those two
(line 300 `pass`), the `finally` closes the connection on every exit path
(lines 302–306), and the outer `while running` loop then returns to
`server_sock.accept`. Any other exception would escape and end the process. -/

/-- A Python exception relevant to the session boundary. -/
inductive PyErr where
  | brokenPipe
  | connReset
  | otherErr
deriving DecidableEq, Repr

/-- Outcome of one `conn.sendall` call. -/
inductive WriteResult where
  | ok
  | errBrokenPipe
  | errConnReset
  | errOther
deriving DecidableEq, Repr

/-- The streaming loop viewed through its writes: the first failing write
raises; exhausting the script models the clean `running = False` exit. -/
def run_session : List WriteResult → Except PyErr Unit
  | [] => Except.ok ()
  | WriteResult.ok :: rest => run_session rest
  | WriteResult.errBrokenPipe :: _ => Except.error PyErr.brokenPipe
  | WriteResult.errConnReset :: _ => Except.error PyErr.connReset
  | WriteResult.errOther :: _ => Except.error PyErr.otherErr

/-- What is observable after the per-session `try/except/finally`:
whether `conn.close()` ran, and which exception (if any) escaped the
session boundary. -/
structure SessionExit where
  conn_closed : Bool
  escaped : Option PyErr
deriving DecidableEq, Repr

/-- The `try ... except (BrokenPipeError, ConnectionResetError): pass`
`finally: conn.close()` wrapper around one session. -/
def handle_session : Except PyErr Unit → SessionExit
  | Except.ok _ => ⟨true, none⟩
  | Except.error PyErr.brokenPipe => ⟨true, none⟩
  | Except.error PyErr.connReset => ⟨true, none⟩
  | Except.error e => ⟨true, some e⟩

/-- The accept loop: serve each downstream connection in turn; an exception
escaping a session boundary ends the process (no further sessions). Returns
the number of sessions served and the escaping exception, if any. -/
def server_loop : List (List WriteResult) → ℕ × Option PyErr
  | [] => (0, none)
  | s :: rest =>
    match (handle_session (run_session s)).escaped with
    | some e => (1, some e)
    | none =>
      let r := server_loop rest
      (r.1 + 1, r.2)

/-- Claim C9: a broken-pipe or connection-reset write failure terminates only
the current session: the connection is closed on that exit path, the error is
absorbed at the session boundary (nothing escapes to crash the process), and
the accept loop goes on to serve every following downstream connection. -/
theorem claim_C9_session_errors :
    ∀ (script : List WriteResult) (rest : List (List WriteResult)),
      (run_session script = Except.error PyErr.brokenPipe
        ∨ run_session script = Except.error PyErr.connReset) →
      handle_session (run_session script) = ⟨true, none⟩
      ∧ (server_loop (script :: rest)).1 = (server_loop rest).1 + 1
      ∧ (server_loop (script :: rest)).2 = (server_loop rest).2 := by
  intro script rest h
  have hh : handle_session (run_session script) = ⟨true, none⟩ := by
    rcases h with h | h <;> rw [h] <;> rfl
  refine ⟨hh, ?_, ?_⟩ <;> simp [server_loop, hh]

theorem claim_C9_session_errors_witness :
    handle_session (run_session [WriteResult.ok, WriteResult.errBrokenPipe])
      = ⟨true, none⟩
    ∧ (server_loop [[WriteResult.ok, WriteResult.errBrokenPipe], [WriteResult.ok]]).1
        = (server_loop [[WriteResult.ok]]).1 + 1
    ∧ (server_loop [[WriteResult.ok, WriteResult.errBrokenPipe], [WriteResult.ok]]).2
        = (server_loop [[WriteResult.ok]]).2 :=
  claim_C9_session_errors [WriteResult.ok, WriteResult.errBrokenPipe]
    [[WriteResult.ok]] (Or.inl rfl)

/-! ### Claim C4: the priming state machine -/

/-- The claim's idle-reset event, in its own words: new primary data arriving
at the first-ever receipt or after a gap exceeding `OP25_IDLE_RESET_S`
(0.40 s) since the previous receipt, or no new data arriving while the gap
since the last receipt exceeds that threshold. -/
def idle_reset_event (now : ℚ) (added : ℕ) (st : Shim) : Prop :=
  (0 < added
    ∧ (st.last_op25_rx_time = 0 ∨ OP25_IDLE_RESET_S < now - st.last_op25_rx_time))
  ∨ (added = 0
    ∧ st.last_op25_rx_time ≠ 0 ∧ OP25_IDLE_RESET_S < now - st.last_op25_rx_time)

lemma update_primer_of_event (cfg : Config) (now : ℚ) (added : ℕ) (st : Shim)
    (hev : idle_reset_event now added st) (hmin : 0 < cfg.minBufferBytes) :
    (update_op25_primer cfg now added st).op25_primed = false := by
  unfold update_op25_primer
  rcases hev with ⟨hpos, hcond⟩ | ⟨hzero, hne, hgap⟩
  · rw [if_pos hpos]
    simp only [if_pos hcond]
    simpa using Nat.pos_iff_ne_zero.mp hmin
  · rw [if_neg (by omega), if_pos ⟨hne, hgap⟩]
    simpa using Nat.pos_iff_ne_zero.mp hmin

lemma update_primer_no_event (cfg : Config) (now : ℚ) (added : ℕ) (st : Shim)
    (hev : ¬ idle_reset_event now added st) :
    (update_op25_primer cfg now added st).op25_primed = st.op25_primed := by
  unfold update_op25_primer
  by_cases hpos : 0 < added
  · have hc : ¬ (st.last_op25_rx_time = 0
        ∨ OP25_IDLE_RESET_S < now - st.last_op25_rx_time) :=
      fun h => hev (Or.inl ⟨hpos, h⟩)
    rw [if_pos hpos]
    simp only [if_neg hc]
  · have hc : ¬ (st.last_op25_rx_time ≠ 0
        ∧ OP25_IDLE_RESET_S < now - st.last_op25_rx_time) :=
      fun h => hev (Or.inr ⟨by omega, h.1, h.2⟩)
    rw [if_neg hpos, if_neg hc]

lemma build_frame_primed_mono (cfg : Config) (now : ℚ) (st : Shim)
    (hpr : st.op25_primed = true) : (build_frame cfg now st).2.op25_primed = true := by
  unfold build_frame serve_inject serve_op25
  split
  · split <;> simp [hpr]
  · split
    · split <;> simp [hpr]
    · simp [hpr]

/-- Claim C4: `op25_primed` is set to `false` exactly by an idle-reset event
while the jitter buffer is enabled (`MIN_BUFFER_BYTES > 0`): such an event
forces it to `false`; a drain step with no such event leaves it unchanged;
a true-to-false transition of the drain step implies the event occurred with
the jitter buffer enabled; and the frame-building step never un-primes. -/
theorem claim_C4_primed_state_machine :
    ∀ (cfg : Config) (now : ℚ) (added : ℕ) (st : Shim),
      (idle_reset_event now added st → 0 < cfg.minBufferBytes →
        (update_op25_primer cfg now added st).op25_primed = false)
      ∧ (¬ idle_reset_event now added st →
        (update_op25_primer cfg now added st).op25_primed = st.op25_primed)
      ∧ (st.op25_primed = true →
          (update_op25_primer cfg now added st).op25_primed = false →
          idle_reset_event now added st ∧ 0 < cfg.minBufferBytes)
      ∧ (st.op25_primed = true → (build_frame cfg now st).2.op25_primed = true) := by
  intro cfg now added st
  refine ⟨update_primer_of_event cfg now added st,
    update_primer_no_event cfg now added st, ?_, build_frame_primed_mono cfg now st⟩
  intro hpr hfalse
  by_cases hev : idle_reset_event now added st
  · refine ⟨hev, ?_⟩
    by_contra hmin
    have hz : cfg.minBufferBytes = 0 := by omega
    unfold update_op25_primer at hfalse
    rcases hev with ⟨hpos, hcond⟩ | ⟨hzero, hne, hgap⟩
    · rw [if_pos hpos] at hfalse
      simp [if_pos hcond, hz] at hfalse
    · rw [if_neg (by omega), if_pos ⟨hne, hgap⟩] at hfalse
      simp [hz] at hfalse
  · rw [update_primer_no_event cfg now added st hev, hpr] at hfalse
    exact absurd hfalse (by simp)

/-- Concrete primed state for the C4 witness: already primed, first receipt
still pending (`last_op25_rx_time = 0`). -/
def stP : Shim := ⟨[], [], true, 0, 0, 0⟩

theorem claim_C4_primed_state_machine_witness :
    (update_op25_primer cfg0 100 2 stP).op25_primed = false
    ∧ (build_frame cfg0 100 stP).2.op25_primed = true := by
  constructor
  · exact (claim_C4_primed_state_machine cfg0 100 2 stP).1
      (Or.inl ⟨by norm_num, Or.inl rfl⟩) (by norm_num [cfg0])
  · exact (claim_C4_primed_state_machine cfg0 100 2 stP).2.2.2 rfl

/-! ### Claim C2: jitter-buffer priming -/

lemma serve_op25_silence (cfg : Config) (st : Shim)
    (hmin : 0 < cfg.minBufferBytes) (hpr : st.op25_primed = false)
    (hge : FRAME_BYTES ≤ st.audio_buf.length)
    (hlt : st.audio_buf.length < cfg.minBufferBytes) :
    serve_op25 cfg st = (List.replicate FRAME_BYTES 0, st) := by
  unfold serve_op25
  rw [if_pos hge, if_pos ⟨hmin, hpr, hlt⟩]

lemma serve_op25_underfill_eq (cfg : Config) (st : Shim)
    (hlt : st.audio_buf.length < FRAME_BYTES) :
    serve_op25 cfg st
      = (st.audio_buf ++ List.replicate (FRAME_BYTES - st.audio_buf.length) 0,
         { st with
            audio_buf := [],
            op25_primed :=
              if 0 < cfg.minBufferBytes ∧ st.op25_primed = false
                  ∧ 0 < st.audio_buf.length
              then true else st.op25_primed }) := by
  unfold serve_op25
  rw [if_neg (by omega)]

lemma serve_op25_take_eq (cfg : Config) (st : Shim)
    (hge : FRAME_BYTES ≤ st.audio_buf.length)
    (hno : ¬ (0 < cfg.minBufferBytes ∧ st.op25_primed = false
              ∧ st.audio_buf.length < cfg.minBufferBytes)) :
    serve_op25 cfg st
      = (st.audio_buf.take FRAME_BYTES,
         { st with
            audio_buf := st.audio_buf.drop FRAME_BYTES,
            op25_primed :=
              if 0 < cfg.minBufferBytes ∧ st.op25_primed = false
              then true else st.op25_primed }) := by
  unfold serve_op25
  rw [if_pos hge, if_neg hno]

/-- An event in a primary-source scenario: a datagram arriving (with its
maintenance steps) or one frame being served from the primary path. -/
inductive PEvent where
  | feed (data : Buf)
  | serve
deriving Repr

/-- The primary-path fragment of the session state. -/
structure PState where
  buf : Buf
  primed : Bool
deriving Repr, DecidableEq

/-- Lift a primary-path state into a full session state (override idle). -/
def pstate_to_shim (p : PState) : Shim := ⟨p.buf, [], p.primed, 0, 0, 0⟩

/-- Run a primary-source scenario: `feed` appends a datagram and runs the
alignment and cap maintenance; `serve` runs `serve_op25`. Returns the final
state, the emitted frames each paired with the cumulative number of bytes fed
before its emission, and the concatenation of all bytes consumed from the
buffer, in order. -/
def prun (cfg : Config) : List PEvent → PState → ℕ → PState × List (Buf × ℕ) × Buf
  | [], p, _ => (p, [], [])
  | PEvent.feed d :: evs, p, fed =>
      prun cfg evs
        ⟨_cap_buffer (_enforce_sample_alignment (p.buf ++ d)) cfg.maxBufferBytes,
         p.primed⟩
        (fed + d.length)
  | PEvent.serve :: evs, p, fed =>
      ((prun cfg evs
          ⟨(serve_op25 cfg (pstate_to_shim p)).2.audio_buf,
           (serve_op25 cfg (pstate_to_shim p)).2.op25_primed⟩ fed).1,
       ((serve_op25 cfg (pstate_to_shim p)).1, fed)
         :: (prun cfg evs
              ⟨(serve_op25 cfg (pstate_to_shim p)).2.audio_buf,
               (serve_op25 cfg (pstate_to_shim p)).2.op25_primed⟩ fed).2.1,
       p.buf.take
          (p.buf.length - (serve_op25 cfg (pstate_to_shim p)).2.audio_buf.length)
         ++ (prun cfg evs
              ⟨(serve_op25 cfg (pstate_to_shim p)).2.audio_buf,
               (serve_op25 cfg (pstate_to_shim p)).2.op25_primed⟩ fed).2.2)

/-- Scenario well-formedness for the priming analysis: datagrams have even
length and the cumulative fed size stays within the cap (so the maintenance
steps delete nothing), and frames are served only while the buffer is empty
or holds at least one full frame. -/
def good_trace (cfg : Config) : List PEvent → PState → ℕ → Bool
  | [], _, _ => true
  | PEvent.feed d :: evs, p, fed =>
      decide (d.length % 2 = 0) && decide (fed + d.length ≤ cfg.maxBufferBytes) &&
      good_trace cfg evs
        ⟨_cap_buffer (_enforce_sample_alignment (p.buf ++ d)) cfg.maxBufferBytes,
         p.primed⟩
        (fed + d.length)
  | PEvent.serve :: evs, p, fed =>
      (decide (p.buf.length = 0) || decide (FRAME_BYTES ≤ p.buf.length)) &&
      good_trace cfg evs
        ⟨(serve_op25 cfg (pstate_to_shim p)).2.audio_buf,
         (serve_op25 cfg (pstate_to_shim p)).2.op25_primed⟩ fed

/-- The bytes fed by a scenario, in order. -/
def feed_concat : List PEvent → Buf
  | [] => []
  | PEvent.feed d :: evs => d ++ feed_concat evs
  | PEvent.serve :: evs => feed_concat evs

lemma serve_step (cfg : Config) (hmin : cfg.minBufferBytes = 4000)
    (p : PState) (fed : ℕ)
    (hgood : p.buf.length = 0 ∨ FRAME_BYTES ≤ p.buf.length)
    (h2 : 2 ∣ p.buf.length) (hle : p.buf.length ≤ fed)
    (hpr : p.primed = true → 4000 ≤ fed) :
    (fed < 4000 → (serve_op25 cfg (pstate_to_shim p)).1 = List.replicate FRAME_BYTES 0)
    ∧ p.buf
        = p.buf.take
            (p.buf.length - (serve_op25 cfg (pstate_to_shim p)).2.audio_buf.length)
          ++ (serve_op25 cfg (pstate_to_shim p)).2.audio_buf
    ∧ 2 ∣ (serve_op25 cfg (pstate_to_shim p)).2.audio_buf.length
    ∧ (serve_op25 cfg (pstate_to_shim p)).2.audio_buf.length ≤ fed
    ∧ ((serve_op25 cfg (pstate_to_shim p)).2.op25_primed = true → 4000 ≤ fed) := by
  have hbuf : (pstate_to_shim p).audio_buf = p.buf := rfl
  have hprm : (pstate_to_shim p).op25_primed = p.primed := rfl
  rcases hgood with hz | hge
  · have hb : p.buf = [] := List.length_eq_zero.mp hz
    have heq := serve_op25_underfill_eq cfg (pstate_to_shim p)
      (by rw [hbuf, hb]; simp [FRAME_BYTES, FRAME_SAMPLES, SAMPLE_RATE, BYTES_PER_SAMPLE, FRAME_MS])
    rw [heq]
    simp only [hbuf, hprm, hb]
    refine ⟨fun _ => by simp, by simp, by simp, by simp, fun h => ?_⟩
    simp only [List.length_nil, lt_self_iff_false, and_false, if_false] at h
    exact hpr h
  · by_cases hsil : p.primed = false ∧ p.buf.length < 4000
    · have heq := serve_op25_silence cfg (pstate_to_shim p)
        (by omega) (by rw [hprm]; exact hsil.1) (by rw [hbuf]; exact hge)
        (by rw [hbuf, hmin]; exact hsil.2)
      rw [heq]
      exact ⟨fun _ => rfl, by simp [pstate_to_shim], h2, hle, hpr⟩
    · have h4 : p.primed = true ∨ 4000 ≤ p.buf.length := by
        rcases Bool.eq_false_or_eq_true p.primed with h | h
        · exact Or.inl h
        · right
          by_contra hlt
          exact hsil ⟨h, by omega⟩
      have heq := serve_op25_take_eq cfg (pstate_to_shim p)
        (by rw [hbuf]; exact hge)
        (by
          rw [hbuf, hprm, hmin]
          rintro ⟨-, hf, hlt⟩
          rcases h4 with h | h
          · rw [h] at hf; exact absurd hf (by simp)
          · omega)
      rw [heq]
      simp only [hbuf, hprm]
      have hfed : 4000 ≤ fed := by
        rcases h4 with h | h
        · exact hpr h
        · omega
      have hdl : (p.buf.drop FRAME_BYTES).length = p.buf.length - FRAME_BYTES := by
        simp [List.length_drop]
      refine ⟨fun hlt => absurd hfed (by omega), ?_, ?_, ?_, fun _ => hfed⟩
      · rw [hdl]
        have hk : p.buf.length - (p.buf.length - FRAME_BYTES) = FRAME_BYTES := by omega
        rw [hk]
        exact (List.take_append_drop FRAME_BYTES p.buf).symm
      · rw [hdl]
        have hfb : 2 ∣ FRAME_BYTES := frame_bytes_even
        omega
      · rw [hdl]; omega

lemma prun_invariant (cfg : Config) (hmin : cfg.minBufferBytes = 4000) :
    ∀ (evs : List PEvent) (p : PState) (fed : ℕ),
      good_trace cfg evs p fed = true →
      2 ∣ p.buf.length → p.buf.length ≤ fed →
      (p.primed = true → 4000 ≤ fed) →
      (∀ c n, (c, n) ∈ (prun cfg evs p fed).2.1 → n < 4000 →
          c = List.replicate FRAME_BYTES 0)
      ∧ p.buf ++ feed_concat evs
          = (prun cfg evs p fed).2.2 ++ (prun cfg evs p fed).1.buf := by
  intro evs
  induction evs with
  | nil =>
    intro p fed _ _ _ _
    exact ⟨fun c n hc => absurd hc (by simp [prun]), by simp [prun, feed_concat]⟩
  | cons e evs ih =>
    intro p fed hg h2 hle hpr
    cases e with
    | feed d =>
      rw [good_trace] at hg
      simp only [Bool.and_eq_true, decide_eq_true_eq] at hg
      obtain ⟨⟨hev, hcap⟩, hrest⟩ := hg
      have hbd : _cap_buffer (_enforce_sample_alignment (p.buf ++ d)) cfg.maxBufferBytes
          = p.buf ++ d := by
        rw [align_eq_of_even _ (by simp only [List.length_append]; omega)]
        unfold _cap_buffer
        rw [if_neg (by simp only [List.length_append]; push_neg; omega)]
      rw [hbd] at hrest
      obtain ⟨ih1, ih2⟩ := ih ⟨p.buf ++ d, p.primed⟩ (fed + d.length) hrest
        (by simp only [List.length_append]; omega)
        (by simp only [List.length_append]; omega)
        (fun h => le_trans (hpr h) (Nat.le_add_right fed d.length))
      constructor
      · intro c n hc hn
        rw [prun, hbd] at hc
        exact ih1 c n hc hn
      · rw [prun, hbd, feed_concat]
        rw [← List.append_assoc]
        exact ih2
    | serve =>
      rw [good_trace] at hg
      simp only [Bool.and_eq_true, Bool.or_eq_true, decide_eq_true_eq] at hg
      obtain ⟨hgood, hrest⟩ := hg
      obtain ⟨hc1, hc2, hc3, hc4, hc5⟩ := serve_step cfg hmin p fed hgood h2 hle hpr
      obtain ⟨ih1, ih2⟩ := ih
        ⟨(serve_op25 cfg (pstate_to_shim p)).2.audio_buf,
         (serve_op25 cfg (pstate_to_shim p)).2.op25_primed⟩ fed hrest hc3 hc4 hc5
      constructor
      · intro c n hc hn
        rw [prun] at hc
        rcases List.mem_cons.mp hc with h | h
        · obtain ⟨hcc, hnn⟩ := Prod.mk.injEq .. ▸ h
          rw [hcc]
          exact hc1 (hnn ▸ hn)
        · exact ih1 c n h hn
      · rw [prun, feed_concat]
        calc p.buf ++ feed_concat evs
            = (p.buf.take
                (p.buf.length - (serve_op25 cfg (pstate_to_shim p)).2.audio_buf.length)
               ++ (serve_op25 cfg (pstate_to_shim p)).2.audio_buf) ++ feed_concat evs := by
              rw [← hc2]
          _ = p.buf.take
                (p.buf.length - (serve_op25 cfg (pstate_to_shim p)).2.audio_buf.length)
               ++ ((serve_op25 cfg (pstate_to_shim p)).2.audio_buf ++ feed_concat evs) := by
              rw [List.append_assoc]
          _ = _ := by
              rw [ih2, ← List.append_assoc]

/-- Claim C2 (amended): while the jitter buffer is enabled and the session
is not yet primed, serving a primary frame with at least `FRAME_BYTES` but
fewer than `MIN_BUFFER_BYTES` buffered emits silence and consumes nothing;
once the buffer holds at least `MIN_BUFFER_BYTES`, real data drains and
`op25_primed` becomes true; a frame served with fewer than `FRAME_BYTES`
buffered consumes everything, pads with zeros, and forces `op25_primed` true
*provided at least one byte existed* (an empty buffer emits silence and
leaves it false). Consequently, with `MIN_BUFFER_BYTES = 4000` and frames
served only while the buffer is empty or holds a full frame, every frame
emitted before 4000 cumulative bytes were fed is all-zero, and the consumed
bytes are a prefix of the fed bytes in order with nothing skipped or
duplicated. -/
theorem claim_C2_jitter_priming :
    (∀ (cfg : Config) (st : Shim), 0 < cfg.minBufferBytes → st.op25_primed = false →
        FRAME_BYTES ≤ st.audio_buf.length → st.audio_buf.length < cfg.minBufferBytes →
        serve_op25 cfg st = (List.replicate FRAME_BYTES 0, st))
    ∧ (∀ (cfg : Config) (st : Shim), 0 < cfg.minBufferBytes → st.op25_primed = false →
        FRAME_BYTES ≤ st.audio_buf.length → cfg.minBufferBytes ≤ st.audio_buf.length →
        (serve_op25 cfg st).1 = st.audio_buf.take FRAME_BYTES
        ∧ (serve_op25 cfg st).2.audio_buf = st.audio_buf.drop FRAME_BYTES
        ∧ (serve_op25 cfg st).2.op25_primed = true)
    ∧ (∀ (cfg : Config) (st : Shim), 0 < cfg.minBufferBytes → st.op25_primed = false →
        st.audio_buf.length < FRAME_BYTES → 0 < st.audio_buf.length →
        (serve_op25 cfg st).1
          = st.audio_buf ++ List.replicate (FRAME_BYTES - st.audio_buf.length) 0
        ∧ (serve_op25 cfg st).2.audio_buf = []
        ∧ (serve_op25 cfg st).2.op25_primed = true)
    ∧ (∀ (cfg : Config) (evs : List PEvent), cfg.minBufferBytes = 4000 →
        good_trace cfg evs ⟨[], false⟩ 0 = true →
        (∀ c n, (c, n) ∈ (prun cfg evs ⟨[], false⟩ 0).2.1 → n < 4000 →
            c = List.replicate FRAME_BYTES 0)
        ∧ feed_concat evs
            = (prun cfg evs ⟨[], false⟩ 0).2.2 ++ (prun cfg evs ⟨[], false⟩ 0).1.buf) := by
  refine ⟨serve_op25_silence, ?_, ?_, ?_⟩
  · intro cfg st hmin hpr hge hfull
    have heq := serve_op25_take_eq cfg st hge (fun h => absurd h.2.2 (by omega))
    rw [heq]
    refine ⟨rfl, rfl, ?_⟩
    simp [hmin, hpr]
  · intro cfg st hmin hpr hlt hpos
    have heq := serve_op25_underfill_eq cfg st hlt
    rw [heq]
    refine ⟨rfl, rfl, ?_⟩
    simp [hmin, hpr, hpos]
  · intro cfg evs hmin hg
    obtain ⟨h1, h2⟩ := prun_invariant cfg hmin evs ⟨[], false⟩ 0 hg (by simp) (by simp)
      (by simp)
    exact ⟨h1, by simpa using h2⟩

/-- Concrete state: a short burst (2 bytes) buffered, not primed. -/
def stF : Shim := ⟨[7, 7], [], false, 0, 0, 0⟩

/-- Claim C2 counterexample: with the jitter buffer enabled and the session
unprimed, serving a frame while the primary buffer is *empty* (fewer than
`FRAME_BYTES` bytes) does not force `op25_primed` true, contrary to the
claim's clause (b); and in a scenario feeding 2 bytes then serving a frame
(cumulative fed 2 < 4000), the emitted frame is not all-zero silence,
contrary to the claim's "every emitted frame is all-zero silence until the
cumulative buffered bytes reach 4000". -/
theorem claim_C2_counterexample :
    (st0.audio_buf.length < FRAME_BYTES ∧ st0.op25_primed = false
      ∧ 0 < cfg0.minBufferBytes ∧ (serve_op25 cfg0 st0).2.op25_primed = false)
    ∧ ((prun cfg0 [PEvent.feed [7, 7], PEvent.serve] ⟨[], false⟩ 0).2.1
        = [([7, 7] ++ List.replicate 318 0, 2)]
      ∧ ([7, 7] ++ List.replicate 318 0 ≠ List.replicate FRAME_BYTES 0)) := by
  refine ⟨⟨by decide, rfl, by decide, by decide⟩, by decide, by decide⟩

/-- Concrete unprimed state holding exactly one frame of real audio. -/
def stS : Shim := ⟨List.replicate 320 1, [], false, 0, 0, 0⟩

/-- Concrete unprimed state holding 400 bytes of real audio. -/
def stD : Shim := ⟨List.replicate 400 1, [], false, 0, 0, 0⟩

/-- Configuration with a small jitter-buffer target (`MIN_BUFFER_BYTES = 400`). -/
def cfgW : Config := ⟨400, 480000, 3/4⟩

lemma stS_len : stS.audio_buf.length = 320 := by
  show (List.replicate 320 1).length = 320
  rw [List.length_replicate]

lemma stD_len : stD.audio_buf.length = 400 := by
  show (List.replicate 400 1).length = 400
  rw [List.length_replicate]

/-- Concrete scenario: one full-frame datagram, then one served frame. -/
def evs0 : List PEvent := [PEvent.feed (List.replicate 320 1), PEvent.serve]

lemma feed_step_evs0 :
    _cap_buffer (_enforce_sample_alignment (([] : Buf) ++ List.replicate 320 1))
      cfg0.maxBufferBytes = List.replicate 320 1 := by
  rw [List.nil_append,
    align_eq_of_even _ (by simp only [List.length_replicate]; norm_num)]
  unfold _cap_buffer
  rw [if_neg (by simp [cfg0])]

lemma serve_step_evs0 :
    serve_op25 cfg0 (pstate_to_shim ⟨List.replicate 320 1, false⟩)
      = (List.replicate FRAME_BYTES 0, pstate_to_shim ⟨List.replicate 320 1, false⟩) :=
  serve_op25_silence cfg0 _ (by norm_num [cfg0]) rfl
    (by simp [pstate_to_shim, FRAME_BYTES_eq]) (by simp [pstate_to_shim, cfg0])

lemma good_trace_evs0 : good_trace cfg0 evs0 ⟨[], false⟩ 0 = true := by
  show good_trace cfg0 [PEvent.feed (List.replicate 320 1), PEvent.serve] ⟨[], false⟩ 0
      = true
  simp only [good_trace, feed_step_evs0]
  simp [FRAME_BYTES_eq, cfg0, pstate_to_shim]

lemma mem_prun_evs0 :
    (List.replicate FRAME_BYTES 0, 320) ∈ (prun cfg0 evs0 ⟨[], false⟩ 0).2.1 := by
  show (List.replicate FRAME_BYTES 0, 320)
      ∈ (prun cfg0 [PEvent.feed (List.replicate 320 1), PEvent.serve] ⟨[], false⟩ 0).2.1
  simp only [prun, feed_step_evs0, serve_step_evs0]
  simp

theorem claim_C2_jitter_priming_witness :
    (serve_op25 cfgW stS = (List.replicate FRAME_BYTES 0, stS))
    ∧ ((serve_op25 cfgW stD).1 = stD.audio_buf.take FRAME_BYTES
       ∧ (serve_op25 cfgW stD).2.audio_buf = stD.audio_buf.drop FRAME_BYTES
       ∧ (serve_op25 cfgW stD).2.op25_primed = true)
    ∧ ((serve_op25 cfgW stF).1
        = stF.audio_buf ++ List.replicate (FRAME_BYTES - stF.audio_buf.length) 0
       ∧ (serve_op25 cfgW stF).2.audio_buf = []
       ∧ (serve_op25 cfgW stF).2.op25_primed = true)
    ∧ List.replicate FRAME_BYTES (0 : ℕ) = List.replicate FRAME_BYTES 0
    ∧ feed_concat evs0
        = (prun cfg0 evs0 ⟨[], false⟩ 0).2.2 ++ (prun cfg0 evs0 ⟨[], false⟩ 0).1.buf := by
  refine ⟨?_, ?_, ?_, ?_, ?_⟩
  · exact claim_C2_jitter_priming.1 cfgW stS (by norm_num [cfgW]) rfl
      (by rw [stS_len]; norm_num [FRAME_BYTES_eq]) (by rw [stS_len]; norm_num [cfgW])
  · exact claim_C2_jitter_priming.2.1 cfgW stD (by norm_num [cfgW]) rfl
      (by rw [stD_len]; norm_num [FRAME_BYTES_eq]) (by rw [stD_len]; norm_num [cfgW])
  · exact claim_C2_jitter_priming.2.2.1 cfgW stF (by norm_num [cfgW]) rfl
      (by norm_num [stF, FRAME_BYTES_eq]) (by norm_num [stF])
  · exact (claim_C2_jitter_priming.2.2.2 cfg0 evs0 rfl good_trace_evs0).1
      (List.replicate FRAME_BYTES 0) 320 mem_prun_evs0 (by norm_num)
  · exact (claim_C2_jitter_priming.2.2.2 cfg0 evs0 rfl good_trace_evs0).2

end Op25
